import Mathlib

/-!
Verification of the Paradone peer-to-peer media overlay (message routing,
gossip weight protocol, media chunk reassembly) against its specification.

The JavaScript sources are shallowly embedded: stateful methods become
functions from an explicit state to a new state, JavaScript numbers used by
the gossip arithmetic become an exact rational type extended with NaN and
the infinities, fields that may be absent or undefined become Option, and
code that can throw returns Except.  A thrown TypeError (property access on
undefined) is modelled as the error string "TypeError".
-/

namespace Paradone

/-! ## JavaScript numbers (gossip arithmetic)

The gossip extension divides by the length of a possibly empty array, so its
arithmetic must track NaN and the infinities.  Finite values are modelled as
exact rationals; double rounding is not modelled (no claim depends on it). -/

inductive JSNum where
  | nan : JSNum
  | inf : JSNum
  | ninf : JSNum
  | num : ℚ → JSNum
deriving DecidableEq, Repr

/-- JavaScript multiplication on the model.  NaN absorbs; an infinity times
zero is NaN; otherwise signs multiply. -/
def jsMul : JSNum → JSNum → JSNum
  | .nan, _ => .nan
  | _, .nan => .nan
  | .num a, .num b => .num (a * b)
  | .inf, .inf => .inf
  | .inf, .ninf => .ninf
  | .ninf, .inf => .ninf
  | .ninf, .ninf => .inf
  | .inf, .num b => if b = 0 then .nan else if 0 < b then .inf else .ninf
  | .num a, .inf => if a = 0 then .nan else if 0 < a then .inf else .ninf
  | .ninf, .num b => if b = 0 then .nan else if 0 < b then .ninf else .inf
  | .num a, .ninf => if a = 0 then .nan else if 0 < a then .ninf else .inf

/-- JavaScript division on the model.  NaN absorbs; a nonzero finite value
divided by zero is a signed infinity; zero divided by zero is NaN; a finite
value divided by an infinity is zero (negative zero is identified with
zero); an infinity divided by an infinity is NaN. -/
def jsDiv : JSNum → JSNum → JSNum
  | .nan, _ => .nan
  | _, .nan => .nan
  | .num a, .num b =>
      if b = 0 then (if a = 0 then .nan else if 0 < a then .inf else .ninf)
      else .num (a / b)
  | .num _, .inf => .num 0
  | .num _, .ninf => .num 0
  | .inf, .num b => if 0 ≤ b then .inf else .ninf
  | .ninf, .num b => if 0 ≤ b then .ninf else .inf
  | .inf, .inf => .nan
  | .inf, .ninf => .nan
  | .ninf, .inf => .nan
  | .ninf, .ninf => .nan

/-- The JavaScript comparison `n < x` for a nonnegative integer count `n`
against a JSNum: false whenever `x` is NaN. -/
def jsLtN (n : ℕ) : JSNum → Bool
  | .nan => false
  | .inf => true
  | .ninf => false
  | .num q => decide ((n : ℚ) < q)

/-- The JavaScript comparison `n <= x`: false whenever `x` is NaN. -/
def jsLeN (n : ℕ) : JSNum → Bool
  | .nan => false
  | .inf => true
  | .ninf => false
  | .num q => decide ((n : ℚ) ≤ q)

/-- Embeds util.js meanArray: `array.reduce((acc, val) => acc + val, 0) /
array.length`.  On the empty array this is 0/0, which is NaN. -/
def meanArray (l : List ℚ) : JSNum :=
  if l.isEmpty then .nan else .num (l.sum / l.length)

/-! ## Messages and the wire-form validity check -/

/-- A message record.  Every field is optional: a missing field models a
property that is absent or undefined in the JavaScript object.  The payload
field data is irrelevant to the claims about routing and is omitted. -/
structure Message where
  type : Option String := none
  from_ : Option String := none
  to_ : Option String := none
  ttl : Option Int := none
  forwardBy : Option (List String) := none
  route : Option (List String) := none
deriving DecidableEq, Repr

/-- Embeds Peer.forwardableTypes from peer.js. -/
def forwardableTypes : List String :=
  ["icecandidate", "request-peer", "offer", "answer"]

/-- The test `contains(msg.type, add.types)` from messageIsValid: an
undefined type is contained in no list. -/
def typeIsForwardable (t : Option String) : Bool :=
  match t with
  | some s => forwardableTypes.contains s
  | none => false

/-- Embeds util.js messageIsValid: the fields type, from, to must be
present and not undefined; when the type is one of request-peer, answer,
icecandidate, offer, the fields ttl and forwardBy must also be present. -/
def messageIsValid (m : Message) : Bool :=
  let originals := m.type.isSome && m.from_.isSome && m.to_.isSome
  let additionals :=
    if typeIsForwardable m.type then m.ttl.isSome && m.forwardBy.isSome
    else true
  originals && additionals

/-! ## The connection table -/

inductive ReadyState where
  | connecting : ReadyState
  | opened : ReadyState
  | closing : ReadyState
  | closed : ReadyState
deriving DecidableEq, Repr

/-- The connection table: remote peer id to channel state, in insertion
order, with the rendezvous channel under the key "signal". -/
abbrev Conns := List (String × ReadyState)

/-- Map.get on the connection table. -/
def lookupRS (k : String) (c : Conns) : Option ReadyState :=
  (c.find? (fun p => p.1 = k)).map (fun p => p.2)

/-- Map.set on the connection table: overwrite in place, or append. -/
def msetRS (k : String) (v : ReadyState) (c : Conns) : Conns :=
  if c.any (fun p => p.1 = k) then
    c.map (fun p => if p.1 = k then (k, v) else p)
  else c ++ [(k, v)]

/-! ## Signal client -/

/-- Embeds Signal.prototype.send from signal.js: `message.ttl = 0` mutates
the message object of the caller, then the object is serialized and sent to
the socket.  Mutation is modelled by returning the updated message; the
second component is the snapshot that is serialized to the socket, which is
the very same value. -/
def signalSend (m : Message) : Message × Message :=
  let m1 := { m with ttl := some 0 }
  (m1, m1)

/-! ## Peer.prototype.broadcast -/

/-- The outcome of a broadcast:  conns is the connection table after the
call (broadcast may install a fresh rendezvous channel), msg is the message
object after the call (Signal send mutates its ttl), sentTo lists the
non-signal recipients in table order, viaSignal records a send on the
rendezvous channel, and success is the returned boolean. -/
structure BroadcastOut where
  conns : Conns
  msg : Message
  sentTo : List String
  viaSignal : Bool
  success : Bool
deriving DecidableEq, Repr

/-- Embeds Peer.prototype.broadcast from peer.js.  Reading
`message.forwardBy.slice()` on a message without a forwardBy field throws a
TypeError.  The message goes to every open non-signal connection whose
remote id neither forwarded the message nor originated it; if no such
neighbour exists and the message originates locally, the rendezvous channel
is tried: open sends and returns true, closing and closed replace the
channel (a fresh WebSocket starts connecting) and return false, connecting
returns false.  A missing rendezvous entry is replaced by a fresh one,
which is still connecting, so the call returns false. -/
def broadcast (selfId : String) (conns : Conns) (m : Message) :
    Except String BroadcastOut :=
  match m.forwardBy with
  | none => .error "TypeError"
  | some fb =>
    let recipients := (conns.filter (fun p =>
      decide (p.1 ≠ "signal" ∧ p.1 ∉ fb ∧ m.from_ ≠ some p.1 ∧
        p.2 = ReadyState.opened))).map (fun p => p.1)
    if recipients = [] ∧ m.from_ = some selfId then
      match lookupRS "signal" conns with
      | none =>
          .ok ⟨msetRS "signal" .connecting conns, m, recipients, false, false⟩
      | some .opened =>
          let s := signalSend m
          .ok ⟨conns, s.1, recipients, true, true⟩
      | some .closing =>
          .ok ⟨msetRS "signal" .connecting conns, m, recipients, false, false⟩
      | some .closed =>
          .ok ⟨msetRS "signal" .connecting conns, m, recipients, false, false⟩
      | some .connecting =>
          .ok ⟨conns, m, recipients, false, false⟩
    else
      .ok ⟨conns, m, recipients, false, true⟩

/-! ## Peer core: the outbound queue and Peer.prototype.send

The embedding models the core Peer without extensions: `this.isHeavy` is
undefined, so the heavy-admission branch of processMessage is skipped.
Observable actions (a send on a connection, a send on the rendezvous
channel, a local dispatch) are collected in a list of effects. -/

/-- A queue element: the message plus its optional timeout and the
timestamp recorded when send was called.  The timeout callback only matters
to the periodic queue sweep, which no claim exercises, so it is omitted. -/
structure QueuedMessage where
  message : Message
  timeout : Option Int := none
  timestamp : Int := 0
deriving DecidableEq, Repr

inductive Effect where
  | sentOver : String → Message → Effect
  | sentSignal : Message → Effect
  | dispatched : Message → Effect
deriving DecidableEq, Repr

structure RouterState where
  selfId : String
  ttl : Int
  conns : Conns
  queue : List QueuedMessage
deriving DecidableEq, Repr

/-- Embeds queueHasPeerRequest from processMessage: containsMatch with the
template `{message: {type: request-peer, from: message.from, to: to}}`.
recursiveMatch rejects a template property whose value is undefined (the
typeof test never matches), hence the isSome requirements. -/
def hasPeerRequest (q : List QueuedMessage) (f t : Option String) : Bool :=
  q.any (fun e =>
    e.message.type == some "request-peer" &&
    (match f with | some s => e.message.from_ == some s | none => false) &&
    (match t with | some s => e.message.to_ == some s | none => false))

/-- Embeds Peer.prototype.requestPeer followed by the send of the built
request-peer message (peer.js).  The inner send validates the message: it
is invalid exactly when the destination is undefined.  A request-peer is
forwardable, so a failed broadcast re-queues it unless an equivalent
request is already queued; it never solicits another request-peer, so the
recursion stops here. -/
def sendRequestPeer (st : RouterState) (t? : Option String)
    (timeout : Option Int) (ts : Int) :
    Except String (RouterState × List Effect) :=
  match t? with
  | none => .error "Message object is invalid"
  | some t =>
    let rp : Message :=
      { type := some "request-peer", from_ := some st.selfId, to_ := some t,
        ttl := some st.ttl, forwardBy := some [] }
    if t = st.selfId then .ok (st, [.dispatched rp])
    else if lookupRS t st.conns = some .opened then .ok (st, [.sentOver t rp])
    else
      match broadcast st.selfId st.conns rp with
      | .error e => .error e
      | .ok out =>
        let st1 := { st with conns := out.conns }
        let effs := out.sentTo.map (fun r => Effect.sentOver r rp) ++
          (if out.viaSignal then [Effect.sentSignal out.msg] else [])
        if out.success then .ok (st1, effs)
        else if t = "signal" ∨ t = "source" then
          .ok ({ st1 with queue := st1.queue ++ [⟨rp, timeout, ts⟩] }, effs)
        else if hasPeerRequest st1.queue (some st.selfId) (some t) then
          .ok (st1, effs)
        else
          .ok ({ st1 with queue := st1.queue ++ [⟨rp, timeout, ts⟩] }, effs)

/-- Embeds addMessageToQueue from processMessage (peer.js): destinations
signal and source are queued as they are; a request-peer is queued only if
no equivalent request is queued already; anything else is queued and a
fresh request-peer toward the destination is sent. -/
def addMessageToQueue (st : RouterState) (elt : QueuedMessage)
    (effs : List Effect) : Except String (RouterState × List Effect) :=
  let m := elt.message
  if m.to_ = some "signal" ∨ m.to_ = some "source" then
    .ok ({ st with queue := st.queue ++ [elt] }, effs)
  else if m.type = some "request-peer" then
    if hasPeerRequest st.queue m.from_ m.to_ then .ok (st, effs)
    else .ok ({ st with queue := st.queue ++ [elt] }, effs)
  else
    let st1 := { st with queue := st.queue ++ [elt] }
    match sendRequestPeer st1 m.to_ elt.timeout elt.timestamp with
    | .error e => .error e
    | .ok (st2, effs2) => .ok (st2, effs ++ effs2)

/-- The tail of processMessage: broadcast a forwardable message (re-queue
it when the broadcast fails), queue everything else. -/
def processForwardOrQueue (st : RouterState) (elt : QueuedMessage) :
    Except String (RouterState × List Effect) :=
  let m := elt.message
  if typeIsForwardable m.type then
    match broadcast st.selfId st.conns m with
    | .error e => .error e
    | .ok out =>
      let st1 := { st with conns := out.conns }
      let effs := out.sentTo.map (fun r => Effect.sentOver r m) ++
        (if out.viaSignal then [Effect.sentSignal out.msg] else [])
      if out.success then .ok (st1, effs)
      else addMessageToQueue st1 elt effs
  else addMessageToQueue st elt []

/-- The route branch of processMessage: when the message carries a route
whose head is an open neighbour, `message.route.shift()` removes the head
in place and the message goes over that connection. -/
def processRoute (st : RouterState) (elt : QueuedMessage) :
    Except String (RouterState × List Effect) :=
  let m := elt.message
  match m.route with
  | some (r :: rest) =>
    if lookupRS r st.conns = some .opened then
      .ok (st, [.sentOver r { m with route := some rest }])
    else processForwardOrQueue st elt
  | _ => processForwardOrQueue st elt

/-- Embeds Peer.prototype.processMessage for a core peer (no heavy
extension): an open connection to the destination wins, then the route
hint, then broadcast for forwardable types, then the queue. -/
def processMessage (st : RouterState) (elt : QueuedMessage) :
    Except String (RouterState × List Effect) :=
  match elt.message.to_ with
  | some t =>
    if lookupRS t st.conns = some .opened then
      .ok (st, [.sentOver t elt.message])
    else processRoute st elt
  | none => processRoute st elt

/-- Embeds Peer.prototype.send: an invalid message throws
`Error("Message object is invalid")` before anything is sent or queued; a
message addressed to the local peer is dispatched locally; anything else
enters processMessage with the outbound queue. -/
def send (st : RouterState) (m : Message) (timeout : Option Int := none)
    (ts : Int := 0) : Except String (RouterState × List Effect) :=
  if messageIsValid m = false then .error "Message object is invalid"
  else if m.to_ = some st.selfId then .ok (st, [.dispatched m])
  else processMessage st ⟨m, timeout, ts⟩

/-! ## Peer.prototype.forward and the reception relay -/

/-- Embeds Peer.prototype.forward from peer.js: `message.ttl -= 1`, then
`message.forwardBy.push(this.id)`, then send.  Pushing onto an undefined
forwardBy throws a TypeError.  Decrementing an undefined ttl would give
NaN; the relay below only forwards messages with a numeric ttl, so the
Option map suffices. -/
def forward (selfId : String) (m : Message) : Except String Message :=
  match m.forwardBy with
  | none => .error "TypeError"
  | some fb =>
    .ok { m with ttl := m.ttl.map (fun t => t - 1),
                 forwardBy := some (fb ++ [selfId]) }

/-- Modelled from the spec: the reception router that decides whether an
incoming message addressed to another peer is forwarded lives in
messageEmitter.js / peerConnection.js, which are not part of the sources;
the spec states that a message with `ttl == 0` is never forwarded and that
the decrement happens exactly once per hop before re-sending.  The relay
therefore forwards through Peer.prototype.forward exactly when the ttl is
a number other than zero. -/
def relayIncoming (selfId : String) (m : Message) : Option Message :=
  match m.ttl with
  | none => none
  | some t => if t = 0 then none else (forward selfId m).toOption

/-! ## Handshake handlers and the ICE candidate buffer (peer.js)

Only the effect of the handlers onicecandidate, onoffer and onrequestpeer
on the connection table and on the ICE candidate buffer is modelled; the
transport callbacks (createSDPAnswer, addIceCandidate, createChannel) do
not touch either table.  Candidate payloads are abstracted to numbers. -/

structure HandshakeState where
  conns : Conns
  ice : List (String × List ℕ)
deriving DecidableEq, Repr

def hasKey (k : String) (l : List (String × α)) : Bool :=
  l.any (fun p => p.1 = k)

/-- Embeds onicecandidate from peer.js: with no connection for the sender
the candidate is buffered (creating or extending the per-sender set); with
a connection the candidate is applied to it and neither table changes. -/
def onicecandidateStep (s : HandshakeState) (f : String) (cand : ℕ) :
    HandshakeState :=
  if hasKey f s.conns then s
  else if hasKey f s.ice then
    { s with ice := s.ice.map (fun p =>
        if p.1 = f then (p.1, p.2 ++ [cand]) else p) }
  else { s with ice := s.ice ++ [(f, [cand])] }

/-- Embeds onoffer from peer.js: a new PeerConnection toward the sender is
created (state connecting), buffered candidates for the sender are drained
into it and their buffer entry deleted, and the connection is stored. -/
def onofferStep (s : HandshakeState) (f : String) : HandshakeState :=
  { conns := msetRS f .connecting s.conns,
    ice := s.ice.filter (fun p => p.1 ≠ f) }

/-- Embeds onrequestpeer from peer.js: with a live (non-closed) connection
to the sender nothing happens; otherwise a new PeerConnection is created
and stored.  Note that, unlike onoffer, this handler does not touch the
ICE candidate buffer. -/
def onrequestpeerStep (s : HandshakeState) (f : String) : HandshakeState :=
  match lookupRS f s.conns with
  | some st => if st ≠ .closed then s
               else { s with conns := msetRS f .connecting s.conns }
  | none => { s with conns := msetRS f .connecting s.conns }

/-- The peer states reachable from an empty peer using only the
onicecandidate and onoffer handlers. -/
inductive ReachOfferIce : HandshakeState → Prop where
  | init : ReachOfferIce ⟨[], []⟩
  | ice (s : HandshakeState) (f : String) (c : ℕ) :
      ReachOfferIce s → ReachOfferIce (onicecandidateStep s f c)
  | offer (s : HandshakeState) (f : String) :
      ReachOfferIce s → ReachOfferIce (onofferStep s f)

/-! ## Gossip engine (gossip.js)

gossip.js stores a single weight value per connection: onweight compares
`connection.weight === \x27light\x27` and assigns the strings light and
heavy to it (the object-valued weight of the Signal connection never
equals either string and is covered by the value other).  The spec calls
this value the incoming weight of the connection. -/

inductive WeightVal where
  | light : WeightVal
  | heavy : WeightVal
  | other : WeightVal
deriving DecidableEq, Repr

/-- A node descriptor as getMaxConnections reads it: the advertised
bandwidth is `nd.media.bandwidth` when both `nd.media` and the field are
defined. -/
structure NodeDescriptor where
  id : String := ""
  mediaBandwidth : Option ℚ := none
deriving DecidableEq, Repr

structure GossipState where
  selfId : String
  conns : List (String × WeightVal)
  view : List NodeDescriptor
  bandwidths : List ℚ
deriving DecidableEq, Repr

def lookupW (k : String) (c : List (String × WeightVal)) : Option WeightVal :=
  (c.find? (fun p => p.1 = k)).map (fun p => p.2)

def msetW (k : String) (v : WeightVal) (c : List (String × WeightVal)) :
    List (String × WeightVal) :=
  c.map (fun p => if p.1 = k then (k, v) else p)

/-- Embeds getHeavyConnections from gossip.js: the number of connections
whose weight is the string heavy. -/
def getHeavyConnections (conns : List (String × WeightVal)) : ℕ :=
  (conns.filter (fun p => p.2 = WeightVal.heavy)).length

/-- Embeds getMaxConnections from gossip.js.  The argument ceilLog stands
for the value of `Math.ceil(Math.log(n + 1))` where n is the view length:
the ceiling of the natural logarithm, a nonnegative integer shared by the
code embedding and by the spec formula, so no claim depends on its
values.  bw is the mean of the own bandwidth samples; meanbw the mean of
the bandwidths advertised in the view; `isNaN(meanbw)` selects the plain
fanout. -/
def getMaxConnections (ceilLog : ℕ → ℕ) (view : List NodeDescriptor)
    (bandwidths : List ℚ) : JSNum :=
  let meanfanout : ℚ := (ceilLog view.length : ℚ)
  let bw := meanArray bandwidths
  let meanbw := meanArray (view.filterMap (fun nd => nd.mediaBandwidth))
  if meanbw = .nan then .num meanfanout
  else jsDiv (jsMul (.num meanfanout) bw) meanbw

/-- Modelled from the spec sentence defining the cap: the product
`ceil(log(sizeOfView + 1)) * selfMeanBw / viewMeanBw` whenever at least one
descriptor in the view advertises a bandwidth, and `ceil(log(sizeOfView +
1))` otherwise, with the same arithmetic as the code. -/
def specMaxConnections (ceilLog : ℕ → ℕ) (view : List NodeDescriptor)
    (bandwidths : List ℚ) : JSNum :=
  let advertised := view.filterMap (fun nd => nd.mediaBandwidth)
  if advertised = [] then .num ((ceilLog view.length : ℚ))
  else jsDiv (jsMul (.num ((ceilLog view.length : ℚ))) (meanArray bandwidths))
    (meanArray advertised)

/-- Embeds the onweight handler from gossip.js.  The second component of
the result is the data value of the gossip:weight reply produced through
respondTo, if any.  Reading `.weight` on a missing connection throws. -/
def onweight (ceilLog : ℕ → ℕ) (st : GossipState) (f : String)
    (data : String) : Except String (GossipState × Option String) :=
  if data = "request-heavy" then
    match lookupW f st.conns with
    | none => .error "TypeError"
    | some w =>
      if w = .light ∧
         jsLtN (getHeavyConnections st.conns)
           (getMaxConnections ceilLog st.view st.bandwidths) = true then
        .ok ({ st with conns := msetW f .heavy st.conns }, some "ack-heavy")
      else .ok (st, some "noack-heavy")
  else if data = "request-light" then
    match lookupW f st.conns with
    | none => .error "TypeError"
    | some _ => .ok ({ st with conns := msetW f .light st.conns },
        some "ack-light")
  else if data = "ack-heavy" then
    match lookupW f st.conns with
    | none => .error "TypeError"
    | some _ => .ok ({ st with conns := msetW f .heavy st.conns }, none)
  else if data = "ack-light" then
    match lookupW f st.conns with
    | none => .error "TypeError"
    | some _ => .ok ({ st with conns := msetW f .light st.conns }, none)
  else .ok (st, none)

/-! ## Media manager (media.js) -/

/-- A video part as append and getChunkedPart see it.  The chunks array is
a JavaScript array that may contain holes: assigning index i beyond the
current length pads with holes and sets the length to i + 1. -/
structure MPart where
  status : String := "needed"
  chunks : List (Option (List ℕ)) := []
  numberOfChunks : Option ℕ := none
  buffer : List ℕ := []
deriving DecidableEq, Repr

/-- JavaScript array index assignment `l[i] = v`: in place when i is below
the length, otherwise the array grows to length i + 1 with holes. -/
def jsArraySet (l : List (Option α)) (i : ℕ) (v : α) : List (Option α) :=
  if i < l.length then l.set i (some v)
  else l ++ List.replicate (i - l.length) none ++ [some v]

/-- ramda flatten applied to the chunks array followed by the Uint8Array
constructor: each present chunk contributes its bytes, and each hole reads
as undefined, which flatten keeps and Uint8Array coerces to one 0 byte. -/
def flattenChunks (l : List (Option (List ℕ))) : List ℕ :=
  l.flatMap (fun c => match c with | some bytes => bytes | none => [0])

/-- Embeds the chunked branch of Media.prototype.append for one part,
called as `append("p:c:n", buf)` on parts[p]: a part whose status is not
pending throws; the chunk is stored at index c and the expected count
recorded; when the length of the chunks array equals n the chunks are
flattened into the buffer and the status becomes available. -/
def appendChunk (part : MPart) (c n : ℕ) (buf : List ℕ) :
    Except String MPart :=
  if part.status ≠ "pending" then .error "Unexpected part has been received"
  else
    let chunks := jsArraySet part.chunks c buf
    if chunks.length = n then
      .ok { part with
            chunks := chunks, numberOfChunks := some n,
            buffer := flattenChunks chunks, status := "available" }
    else
      .ok { part with chunks := chunks, numberOfChunks := some n }

/-- The loop bound `Math.ceil(part.byteLength / chunkSize)` of
getChunkedPart as the chunk loop sees it: for a zero chunkSize and a
nonempty buffer the bound is Infinity and the loop never terminates,
modelled as none; for a zero chunkSize and an empty buffer the bound is
NaN and the loop body never runs. -/
def chunkLoopBound (len cs : ℕ) : Option ℕ :=
  if cs = 0 then (if len = 0 then some 0 else none)
  else some ((len + cs - 1) / cs)

/-- Embeds Media.prototype.getChunkedPart: for a known part whose status
is available or added, the buffer is cut with subarray into consecutive
chunks of at most chunkSize bytes; otherwise the empty array is returned.
The result none models the non-terminating loop. -/
def getChunkedPart (parts : List MPart) (chunkSize p : ℕ) :
    Option (List (List ℕ)) :=
  match parts.get? p with
  | some part =>
    if part.status = "available" ∨ part.status = "added" then
      match chunkLoopBound part.buffer.length chunkSize with
      | none => none
      | some n => some ((List.range n).map (fun i =>
          (part.buffer.drop (i * chunkSize)).take chunkSize))
    else some []
  | none => some []

/-! ## Theorems -/

/-- Claim C2 (code bug): the spec demands that a part become available
exactly when all n chunks are present and that its buffer then be the
in-order concatenation of the chunks, whatever the arrival order; append
even documents the check as `Check if we have all chunks`.  The code tests
`part.chunks.length === numberOfChunks`, and a JavaScript sparse-array
assignment at index 2 inflates the length to 3, so after receiving only
chunks 0 and 2 of 3 the part is marked available with a hole at index 1
and a corrupted buffer, and the true chunk 1 is then rejected with
`Unexpected part has been received` (the spec scenario
`append("5:0:3", b0)`, `append("5:2:3", b2)`, `append("5:1:3", b1)`
therefore fails). -/
theorem appendChunk_out_of_order_premature :
  appendChunk { status := "pending" } 0 3 [10, 11] =
    .ok { status := "pending", chunks := [some [10, 11]],
          numberOfChunks := some 3, buffer := [] } ∧
  appendChunk { status := "pending", chunks := [some [10, 11]],
                numberOfChunks := some 3 } 2 3 [30, 31] =
    .ok { status := "available",
          chunks := [some [10, 11], none, some [30, 31]],
          numberOfChunks := some 3, buffer := [10, 11, 0, 30, 31] } ∧
  appendChunk { status := "available",
                chunks := [some [10, 11], none, some [30, 31]],
                numberOfChunks := some 3,
                buffer := [10, 11, 0, 30, 31] } 1 3 [20, 21] =
    .error "Unexpected part has been received" :=
  ⟨rfl, rfl, rfl⟩

/-- Claim C1 counterexample: a message whose sender is not the local peer
("b" versus "a"), with an empty connection table, reaches no neighbour and
is not sent on the rendezvous channel, yet broadcast returns true; the
claim says broadcast returns false in every case where no copy leaves the
node. -/
theorem broadcast_counterexample :
  broadcast "a" []
    { type := some "x", from_ := some "b", to_ := some "c",
      ttl := some 3, forwardBy := some [] } =
  .ok { conns := [],
        msg := { type := some "x", from_ := some "b", to_ := some "c",
                 ttl := some 3, forwardBy := some [] },
        sentTo := [], viaSignal := false, success := true } := rfl

/-- Claim C3 counterexample: an icecandidate from B buffered while no
connection to B exists, followed by a request-peer from B, leaves both the
connection table and the ICE candidate buffer with an entry keyed B: the
request-peer handler creates the connection without draining the buffer,
contradicting the claimed disjointness in every reachable state. -/
theorem handshake_disjoint_counterexample :
  onrequestpeerStep (onicecandidateStep ⟨[], []⟩ "B" 7) "B" =
    ⟨[("B", .connecting)], [("B", [7])]⟩ ∧
  hasKey "B" (onrequestpeerStep (onicecandidateStep ⟨[], []⟩ "B" 7) "B").conns
    = true ∧
  hasKey "B" (onrequestpeerStep (onicecandidateStep ⟨[], []⟩ "B" 7) "B").ice
    = true :=
  ⟨rfl, rfl, rfl⟩

/-- Claim C10 counterexample: with chunkSize 0 and a known available part
whose buffer is nonempty, the loop bound `Math.ceil(1 / 0)` is Infinity
and the chunk loop never terminates (modelled as none), so getChunkedPart
is not total on all inputs as claimed. -/
theorem getChunkedPart_counterexample :
  getChunkedPart [{ status := "available", buffer := [1] }] 0 0 = none := rfl

/-- Claim C7 (confirmed): getMaxConnections returns
`ceil(log(sizeOfView + 1)) * mean(own samples) / mean(advertised)` computed
with JavaScript arithmetic whenever at least one descriptor in the view
advertises media.bandwidth, and the bare `ceil(log(sizeOfView + 1))`
otherwise: the code guard `isNaN(meanbw)` holds exactly when the list of
advertised bandwidths is empty, because the mean of a nonempty list of
rationals is a rational.  The function ceilLog is the shared model of
`Math.ceil(Math.log(n + 1))`. -/
theorem getMaxConnections_refines_spec (ceilLog : ℕ → ℕ)
    (view : List NodeDescriptor) (bandwidths : List ℚ) :
    getMaxConnections ceilLog view bandwidths =
      specMaxConnections ceilLog view bandwidths := by
  unfold getMaxConnections specMaxConnections
  rcases h : view.filterMap (fun nd => nd.mediaBandwidth) with _ | ⟨q, rest⟩ <;>
    simp [h, meanArray]

/-- Claim C5 (confirmed): no message with ttl 0 is forwarded, and a
forwarded message has its ttl decremented exactly once and the local peer
id appended to forwardBy before it is re-sent.  The ttl guard itself lives
in the reception router, which is not among the sources and is modelled
from the spec (relayIncoming); the mutation is Peer.prototype.forward,
embedded from peer.js. -/
theorem relay_ttl_spec (selfId : String) (m : Message) :
    (m.ttl = some 0 → relayIncoming selfId m = none) ∧
    (∀ m1, relayIncoming selfId m = some m1 →
      ∃ t fb, m.ttl = some t ∧ t ≠ 0 ∧ m.forwardBy = some fb ∧
        m1.ttl = some (t - 1) ∧ m1.forwardBy = some (fb ++ [selfId]) ∧
        selfId ∈ fb ++ [selfId]) := by
  constructor
  · intro h
    simp [relayIncoming, h]
  · intro m1 h
    rcases hm : m.ttl with _ | t
    · simp [relayIncoming, hm] at h
    · simp only [relayIncoming, hm] at h
      by_cases ht : t = 0
      · simp [ht] at h
      · rw [if_neg ht] at h
        rcases hfb : m.forwardBy with _ | fb
        · simp [forward, hfb, Except.toOption] at h
        · simp only [forward, hfb, Except.toOption] at h
          have hinj := Option.some.inj h
          subst hinj
          refine ⟨t, fb, rfl, ht, rfl, ?_, rfl, ?_⟩
          · simp [hm]
          · simp

/-- Claim C5 witness: a concrete message with ttl 2 forwarded by "a". -/
theorem relay_ttl_spec_witness :
    (({ type := some "offer", from_ := some "b", to_ := some "c",
        ttl := some 2, forwardBy := some ["x"] } : Message).ttl = some 0 →
      relayIncoming "a"
        { type := some "offer", from_ := some "b", to_ := some "c",
          ttl := some 2, forwardBy := some ["x"] } = none) ∧
    (∀ m1, relayIncoming "a"
        { type := some "offer", from_ := some "b", to_ := some "c",
          ttl := some 2, forwardBy := some ["x"] } = some m1 →
      ∃ t fb,
        ({ type := some "offer", from_ := some "b", to_ := some "c",
           ttl := some 2, forwardBy := some ["x"] } : Message).ttl = some t ∧
        t ≠ 0 ∧
        ({ type := some "offer", from_ := some "b", to_ := some "c",
           ttl := some 2, forwardBy := some ["x"] } : Message).forwardBy
          = some fb ∧
        m1.ttl = some (t - 1) ∧ m1.forwardBy = some (fb ++ ["a"]) ∧
        "a" ∈ fb ++ ["a"]) :=
  relay_ttl_spec "a"
    { type := some "offer", from_ := some "b", to_ := some "c",
      ttl := some 2, forwardBy := some ["x"] }

/-- Claim C9 (confirmed): Signal send assigns 0 to the ttl of the message
object handed in by the caller before serializing it, so the serialized
frame and the object the caller keeps are the same value with ttl 0; in
particular when broadcast falls back to the rendezvous channel, the
message object it hands back carries ttl 0 (and only its ttl changed), so
every later re-send of that same object sends ttl 0. -/
theorem signal_send_mutates_ttl (selfId : String) (conns : Conns)
    (m : Message) (out : BroadcastOut) :
    (signalSend m).1 = { m with ttl := some 0 } ∧
    (signalSend m).2 = (signalSend m).1 ∧
    (broadcast selfId conns m = .ok out → out.viaSignal = true →
      out.msg = { m with ttl := some 0 } ∧
      (signalSend out.msg).1 = out.msg) := by
  refine ⟨rfl, rfl, ?_⟩
  intro hb hv
  rcases hfb : m.forwardBy with _ | fb
  · simp [broadcast, hfb] at hb
  · simp only [broadcast, hfb] at hb
    split at hb
    · split at hb <;> cases hb <;>
        first
          | exact ⟨by simp [signalSend, hfb], rfl⟩
          | exact absurd hv (by simp)
    · cases hb
      exact absurd hv (by simp)

/-- A locally originated offer message used by the C9 witness. -/
def sampleOffer : Message :=
  { type := some "offer", from_ := some "a", to_ := some "c",
    ttl := some 3, forwardBy := some [] }

/-- The outcome of broadcasting sampleOffer with no neighbours and an open
rendezvous channel, used by the C9 witness. -/
def sampleOfferOut : BroadcastOut :=
  { conns := [("signal", .opened)],
    msg := { type := some "offer", from_ := some "a", to_ := some "c",
             ttl := some 0, forwardBy := some [] },
    sentTo := [], viaSignal := true, success := true }

/-- Claim C9 witness: the concrete fallback of a locally originated offer
with no neighbours and an open rendezvous channel. -/
theorem signal_send_mutates_ttl_witness :
    (signalSend sampleOffer).1 = { sampleOffer with ttl := some 0 } ∧
    (signalSend sampleOffer).2 = (signalSend sampleOffer).1 ∧
    (broadcast "a" [("signal", .opened)] sampleOffer = .ok sampleOfferOut →
      sampleOfferOut.viaSignal = true →
      sampleOfferOut.msg = { sampleOffer with ttl := some 0 } ∧
      (signalSend sampleOfferOut.msg).1 = sampleOfferOut.msg) :=
  signal_send_mutates_ttl "a" [("signal", .opened)] sampleOffer
    sampleOfferOut

/-- A strict JavaScript comparison implies the non-strict one. -/
theorem jsLtN_imp_jsLeN (n : ℕ) (x : JSNum) (h : jsLtN n x = true) :
    jsLeN n x = true := by
  cases x with
  | nan => simp [jsLtN] at h
  | inf => rfl
  | ninf => simp [jsLtN] at h
  | num q =>
    simp [jsLtN] at h
    simp [jsLeN]
    exact le_of_lt h

/-- Claim C4 (confirmed): on a gossip:weight request-heavy from p, if the
connection to p has weight light (the value the spec calls the incoming
weight) and the heavy-connection count is strictly below
getMaxConnections, the node replies ack-heavy and sets that weight to
heavy; otherwise it replies noack-heavy and the state is unchanged; and
whenever ack-heavy is issued the heavy count at that moment is strictly
below, hence does not exceed, getMaxConnections. -/
theorem onweight_request_heavy (ceilLog : ℕ → ℕ) (st : GossipState)
    (p : String) (w : WeightVal) (h : lookupW p st.conns = some w) :
    (w = .light ∧ jsLtN (getHeavyConnections st.conns)
        (getMaxConnections ceilLog st.view st.bandwidths) = true →
      onweight ceilLog st p "request-heavy" =
        .ok ({ st with conns := msetW p .heavy st.conns },
          some "ack-heavy")) ∧
    (¬(w = .light ∧ jsLtN (getHeavyConnections st.conns)
        (getMaxConnections ceilLog st.view st.bandwidths) = true) →
      onweight ceilLog st p "request-heavy" =
        .ok (st, some "noack-heavy")) ∧
    (∀ st1, onweight ceilLog st p "request-heavy" =
        .ok (st1, some "ack-heavy") →
      jsLtN (getHeavyConnections st.conns)
        (getMaxConnections ceilLog st.view st.bandwidths) = true ∧
      jsLeN (getHeavyConnections st.conns)
        (getMaxConnections ceilLog st.view st.bandwidths) = true) := by
  simp only [onweight, h, if_pos]
  by_cases hc : w = WeightVal.light ∧ jsLtN (getHeavyConnections st.conns)
      (getMaxConnections ceilLog st.view st.bandwidths) = true
  · rw [if_pos hc]
    refine ⟨fun _ => rfl, fun hn => absurd hc hn, ?_⟩
    intro st1 _
    exact ⟨hc.2, jsLtN_imp_jsLeN _ _ hc.2⟩
  · rw [if_neg hc]
    refine ⟨fun hcc => absurd hcc hc, fun _ => rfl, ?_⟩
    intro st1 he
    simp at he

/-- Claim C4 witness: a light connection, empty view and one free slot. -/
theorem onweight_request_heavy_witness :
    ((WeightVal.light = WeightVal.light ∧
        jsLtN (getHeavyConnections [("p", WeightVal.light)])
          (getMaxConnections (fun _ => 1) [] []) = true →
      onweight (fun _ => 1) ⟨"a", [("p", WeightVal.light)], [], []⟩ "p"
          "request-heavy" =
        .ok ({ (⟨"a", [("p", WeightVal.light)], [], []⟩ : GossipState) with
               conns := msetW "p" .heavy [("p", WeightVal.light)] },
          some "ack-heavy")) ∧
    (¬(WeightVal.light = WeightVal.light ∧
        jsLtN (getHeavyConnections [("p", WeightVal.light)])
          (getMaxConnections (fun _ => 1) [] []) = true) →
      onweight (fun _ => 1) ⟨"a", [("p", WeightVal.light)], [], []⟩ "p"
          "request-heavy" =
        .ok (⟨"a", [("p", WeightVal.light)], [], []⟩, some "noack-heavy")) ∧
    (∀ st1, onweight (fun _ => 1)
        ⟨"a", [("p", WeightVal.light)], [], []⟩ "p" "request-heavy" =
        .ok (st1, some "ack-heavy") →
      jsLtN (getHeavyConnections [("p", WeightVal.light)])
        (getMaxConnections (fun _ => 1) [] []) = true ∧
      jsLeN (getHeavyConnections [("p", WeightVal.light)])
        (getMaxConnections (fun _ => 1) [] []) = true)) :=
  onweight_request_heavy (fun _ => 1)
    ⟨"a", [("p", WeightVal.light)], [], []⟩ "p" WeightVal.light rfl

/-- Claim C8 (confirmed): with no own bandwidth samples but at least one
advertised bandwidth in the view, getMaxConnections is NaN (the mean of
the empty sample list is NaN and propagates through the product and the
quotient), every comparison count < getMaxConnections is false, and every
request-heavy is answered noack-heavy with the state unchanged. -/
theorem getMaxConnections_nan_noack (ceilLog : ℕ → ℕ) (st : GossipState)
    (p : String) (w : WeightVal) (h1 : st.bandwidths = [])
    (h2 : st.view.filterMap (fun nd => nd.mediaBandwidth) ≠ [])
    (h3 : lookupW p st.conns = some w) :
    getMaxConnections ceilLog st.view st.bandwidths = .nan ∧
    (∀ n : ℕ, jsLtN n (getMaxConnections ceilLog st.view st.bandwidths)
      = false) ∧
    onweight ceilLog st p "request-heavy" = .ok (st, some "noack-heavy") := by
  have hmax : getMaxConnections ceilLog st.view st.bandwidths = .nan := by
    unfold getMaxConnections
    rcases hl : st.view.filterMap (fun nd => nd.mediaBandwidth)
      with _ | ⟨q, rest⟩
    · exact absurd hl h2
    · simp [hl, meanArray, h1, jsMul, jsDiv]
  refine ⟨hmax, fun n => by rw [hmax]; rfl, ?_⟩
  simp only [onweight, h3, if_pos]
  rw [if_neg]
  rintro ⟨-, hlt⟩
  rw [hmax] at hlt
  simp [jsLtN] at hlt

/-- Claim C8 witness: a node with an empty sample list, one advertising
neighbour, and a light connection that still gets noack-heavy. -/
theorem getMaxConnections_nan_noack_witness :
    getMaxConnections (fun _ => 1)
      [{ id := "q", mediaBandwidth := some 5 }] [] = .nan ∧
    (∀ n : ℕ, jsLtN n (getMaxConnections (fun _ => 1)
      [{ id := "q", mediaBandwidth := some 5 }] []) = false) ∧
    onweight (fun _ => 1)
      ⟨"a", [("p", WeightVal.light)],
        [{ id := "q", mediaBandwidth := some 5 }], []⟩ "p" "request-heavy" =
      .ok (⟨"a", [("p", WeightVal.light)],
        [{ id := "q", mediaBandwidth := some 5 }], []⟩,
        some "noack-heavy") :=
  getMaxConnections_nan_noack (fun _ => 1)
    ⟨"a", [("p", WeightVal.light)],
      [{ id := "q", mediaBandwidth := some 5 }], []⟩ "p" WeightVal.light
    rfl (by decide) rfl

/-- hasKey as an existence statement. -/
theorem hasKey_iff {α : Type} (r : String) (l : List (String × α)) :
    hasKey r l = true ↔ ∃ p, p ∈ l ∧ p.1 = r := by
  simp [hasKey, List.any_eq_true]

/-- Extending the candidate set of one key does not change the keys. -/
theorem hasKey_iceUpdate (r f : String) (c : ℕ) (l : List (String × List ℕ)) :
    hasKey r (l.map (fun p => if p.1 = f then (p.1, p.2 ++ [c]) else p)) =
      hasKey r l := by
  have hfst : ∀ p : String × List ℕ,
      ((if p.1 = f then (p.1, p.2 ++ [c]) else p) : String × List ℕ).1 =
        p.1 := by
    intro p; split <;> rfl
  rcases hk : hasKey r l with _ | _
  · rw [eq_comm]
    by_contra hne
    have h1 := (hasKey_iff r _).1 (by simpa using hne)
    rcases h1 with ⟨p, hp, hpr⟩
    rcases List.mem_map.1 hp with ⟨q, hq, rfl⟩
    have : hasKey r l = true :=
      (hasKey_iff r l).2 ⟨q, hq, by rw [← hfst q]; exact hpr⟩
    rw [hk] at this
    exact absurd this (by simp)
  · rcases (hasKey_iff r l).1 hk with ⟨q, hq, hqr⟩
    exact (hasKey_iff r _).2
      ⟨_, List.mem_map.2 ⟨q, hq, rfl⟩, by rw [hfst q]; exact hqr⟩

/-- Keys after appending a single binding. -/
theorem hasKey_append_one {α : Type} (r f : String) (x : α)
    (l : List (String × α)) :
    hasKey r (l ++ [(f, x)]) = true ↔ (hasKey r l = true ∨ f = r) := by
  rw [hasKey_iff, hasKey_iff]
  constructor
  · rintro ⟨p, hp, hpr⟩
    rcases List.mem_append.1 hp with hp | hp
    · exact Or.inl ⟨p, hp, hpr⟩
    · right
      rcases List.mem_singleton.1 hp with rfl
      exact hpr
  · rintro (⟨p, hp, hpr⟩ | rfl)
    · exact ⟨p, List.mem_append.2 (Or.inl hp), hpr⟩
    · exact ⟨(f, x),
        List.mem_append.2 (Or.inr (List.mem_singleton.2 rfl)), rfl⟩

/-- Keys after a Map.set on the connection table. -/
theorem hasKey_msetRS_iff (r f : String) (v : ReadyState) (c : Conns) :
    hasKey r (msetRS f v c) = true ↔ (hasKey r c = true ∨ f = r) := by
  unfold msetRS
  by_cases hf : c.any (fun p => p.1 = f) = true
  · rw [if_pos hf]
    constructor
    · intro h
      rcases (hasKey_iff r _).1 h with ⟨p, hp, hpr⟩
      rcases List.mem_map.1 hp with ⟨q, hq, rfl⟩
      by_cases hqf : q.1 = f
      · rw [if_pos hqf] at hpr
        exact Or.inr hpr
      · rw [if_neg hqf] at hpr
        exact Or.inl ((hasKey_iff r c).2 ⟨q, hq, hpr⟩)
    · rintro (h | rfl)
      · rcases (hasKey_iff r c).1 h with ⟨q, hq, hqr⟩
        refine (hasKey_iff r _).2 ⟨_, List.mem_map.2 ⟨q, hq, rfl⟩, ?_⟩
        by_cases hqf : q.1 = f
        · rw [if_pos hqf]
          rw [hqf] at hqr
          exact hqr
        · rw [if_neg hqf]
          exact hqr
      · rcases (hasKey_iff f c).1 (by simpa [hasKey] using hf)
          with ⟨q, hq, hqf⟩
        refine (hasKey_iff f _).2 ⟨_, List.mem_map.2 ⟨q, hq, rfl⟩, ?_⟩
        rw [if_pos hqf]
  · rw [if_neg hf]
    exact hasKey_append_one r f v c

/-- Keys after deleting one key from the candidate buffer. -/
theorem hasKey_filter_ne (r f : String) (l : List (String × List ℕ)) :
    hasKey r (l.filter (fun p => p.1 ≠ f)) = true ↔
      (hasKey r l = true ∧ r ≠ f) := by
  simp only [hasKey_iff]
  constructor
  · rintro ⟨p, hp, hpr⟩
    rcases List.mem_filter.1 hp with ⟨hpl, hpf⟩
    rw [decide_eq_true_eq] at hpf
    exact ⟨⟨p, hpl, hpr⟩, by rw [← hpr]; exact hpf⟩
  · rintro ⟨⟨p, hp, hpr⟩, hrf⟩
    refine ⟨p, List.mem_filter.2 ⟨hp, ?_⟩, hpr⟩
    rw [decide_eq_true_eq, hpr]
    exact hrf

/-- Claim C3 (corrected): the claimed disjointness fails for the
request-peer handler (see the counterexample); it does hold in every state
reachable with the icecandidate and offer handlers alone, because offer
drains and deletes the buffered candidates of its sender when it creates
the connection, and icecandidate only buffers for senders without a
connection. -/
theorem handshake_disjoint_offer_ice (s : HandshakeState)
    (h : ReachOfferIce s) (r : String) :
    ¬(hasKey r s.conns = true ∧ hasKey r s.ice = true) := by
  induction h with
  | init => simp [hasKey]
  | ice s0 f c _ ih =>
    by_cases h1 : hasKey f s0.conns = true
    · simpa [onicecandidateStep, h1] using ih
    · by_cases h2 : hasKey f s0.ice = true
      · rintro ⟨hc, hi⟩
        simp only [onicecandidateStep, if_neg h1, if_pos h2] at hc hi
        rw [hasKey_iceUpdate] at hi
        exact ih ⟨hc, hi⟩
      · rintro ⟨hc, hi⟩
        simp only [onicecandidateStep, if_neg h1, if_neg h2] at hc hi
        rcases (hasKey_append_one r f [c] s0.ice).1 hi with hi0 | rfl
        · exact ih ⟨hc, hi0⟩
        · exact h1 hc
  | offer s0 f _ ih =>
    rintro ⟨hc, hi⟩
    simp only [onofferStep] at hc hi
    rcases (hasKey_filter_ne r f s0.ice).1 hi with ⟨hi0, hrf⟩
    rcases (hasKey_msetRS_iff r f .connecting s0.conns).1 hc with hc0 | rfl
    · exact ih ⟨hc0, hi0⟩
    · exact hrf rfl

/-- Claim C3 witness: the invariant evaluated after buffering a candidate
from B and then handling an offer from B. -/
theorem handshake_disjoint_offer_ice_witness :
    ¬(hasKey "B"
        (onofferStep (onicecandidateStep ⟨[], []⟩ "B" 7) "B").conns = true ∧
      hasKey "B"
        (onofferStep (onicecandidateStep ⟨[], []⟩ "B" 7) "B").ice = true) :=
  handshake_disjoint_offer_ice _
    (ReachOfferIce.offer _ "B" (ReachOfferIce.ice _ "B" 7 ReachOfferIce.init))
    "B"

/-- Every recipient chosen by broadcast is an open non-signal connection
whose remote id neither forwarded nor originated the message. -/
theorem mem_broadcast_recipients (conns : Conns) (fb : List String)
    (mf : Option String) (r : String)
    (hr : r ∈ (conns.filter (fun p =>
      decide (p.1 ≠ "signal" ∧ p.1 ∉ fb ∧ mf ≠ some p.1 ∧
        p.2 = ReadyState.opened))).map (fun p => p.1)) :
    (r, ReadyState.opened) ∈ conns ∧ r ≠ "signal" ∧ r ∉ fb ∧
      mf ≠ some r := by
  rcases List.mem_map.1 hr with ⟨p, hp, rfl⟩
  rcases List.mem_filter.1 hp with ⟨hpc, hpred⟩
  rw [decide_eq_true_eq] at hpred
  obtain ⟨hs, hf, hm, ho⟩ := hpred
  have hpe : (p.1, ReadyState.opened) = p := by
    rcases p with ⟨a, b⟩
    simp only at ho
    rw [ho]
  rw [hpe]
  exact ⟨hpc, hs, hf, hm⟩

/-- Claim C1 (corrected): for a message with a forwardBy field, broadcast
sends to exactly the open non-signal connections outside forwardBy and
the originator, falls back to an open rendezvous channel only when there
is no such neighbour and the message originates locally, and returns
false exactly when there is no such neighbour, the message originates
locally, and the rendezvous channel is not open.  The claim fails in one
case (see the counterexample): with no eligible neighbour and a sender
other than the local peer, broadcast sends nothing yet returns true. -/
theorem broadcast_success_spec (selfId : String) (conns : Conns)
    (m : Message) (fb : List String) (h : m.forwardBy = some fb) :
    ∃ out, broadcast selfId conns m = .ok out ∧
      (out.success = false ↔
        (out.sentTo = [] ∧ m.from_ = some selfId ∧
          lookupRS "signal" conns ≠ some .opened)) ∧
      (out.viaSignal = true ↔
        (out.sentTo = [] ∧ m.from_ = some selfId ∧
          lookupRS "signal" conns = some .opened)) ∧
      (∀ r ∈ out.sentTo, (r, ReadyState.opened) ∈ conns ∧ r ≠ "signal" ∧
        r ∉ fb ∧ m.from_ ≠ some r) ∧
      (m.from_ ≠ some selfId → out.success = true) := by
  simp only [broadcast, h]
  by_cases hc : ((conns.filter (fun p =>
      decide (p.1 ≠ "signal" ∧ p.1 ∉ fb ∧ m.from_ ≠ some p.1 ∧
        p.2 = ReadyState.opened))).map (fun p => p.1)) = [] ∧
      m.from_ = some selfId
  · rw [if_pos hc]
    obtain ⟨hR0, hfrom⟩ := hc
    rcases hsig : lookupRS "signal" conns with _ | st
    · refine ⟨_, rfl, ?_, ?_, ?_, ?_⟩
      · simp only [hR0]
        simp [hfrom, hsig]
      · simp only [hR0]
        simp [hsig]
      · intro r hr
        exact absurd hr (by rw [hR0]; simp)
      · intro hn
        exact absurd hfrom hn
    · cases st
      · refine ⟨_, rfl, ?_, ?_, ?_, ?_⟩
        · simp only [hR0]
          simp [hfrom, hsig]
        · simp only [hR0]
          simp [hsig]
        · intro r hr
          exact absurd hr (by rw [hR0]; simp)
        · intro hn
          exact absurd hfrom hn
      · refine ⟨_, rfl, ?_, ?_, ?_, ?_⟩
        · simp only [hR0]
          simp [hsig]
        · simp only [hR0]
          simp [hfrom, hsig]
        · intro r hr
          exact absurd hr (by rw [hR0]; simp)
        · intro _
          rfl
      · refine ⟨_, rfl, ?_, ?_, ?_, ?_⟩
        · simp only [hR0]
          simp [hfrom, hsig]
        · simp only [hR0]
          simp [hsig]
        · intro r hr
          exact absurd hr (by rw [hR0]; simp)
        · intro hn
          exact absurd hfrom hn
      · refine ⟨_, rfl, ?_, ?_, ?_, ?_⟩
        · simp only [hR0]
          simp [hfrom, hsig]
        · simp only [hR0]
          simp [hsig]
        · intro r hr
          exact absurd hr (by rw [hR0]; simp)
        · intro hn
          exact absurd hfrom hn
  · rw [if_neg hc]
    refine ⟨_, rfl, ?_, ?_, ?_, ?_⟩
    · simp only []
      constructor
      · intro hfalse
        exact absurd hfalse (by simp)
      · rintro ⟨h1, h2, h3⟩
        exact absurd ⟨h1, h2⟩ hc
    · simp only []
      constructor
      · intro hfalse
        exact absurd hfalse (by simp)
      · rintro ⟨h1, h2, h3⟩
        exact absurd ⟨h1, h2⟩ hc
    · intro r hr
      exact mem_broadcast_recipients conns fb m.from_ r hr
    · intro _
      rfl

/-- Claim C1 witness: a locally originated offer with one eligible open
neighbour z. -/
theorem broadcast_success_spec_witness :
    ∃ out, broadcast "a" [("signal", .opened), ("z", .opened)]
        { type := some "offer", from_ := some "a", to_ := some "c",
          ttl := some 3, forwardBy := some [] } = .ok out ∧
      (out.success = false ↔
        (out.sentTo = [] ∧
          ({ type := some "offer", from_ := some "a", to_ := some "c",
             ttl := some 3, forwardBy := some [] } : Message).from_ =
            some "a" ∧
          lookupRS "signal" [("signal", .opened), ("z", .opened)] ≠
            some .opened)) ∧
      (out.viaSignal = true ↔
        (out.sentTo = [] ∧
          ({ type := some "offer", from_ := some "a", to_ := some "c",
             ttl := some 3, forwardBy := some [] } : Message).from_ =
            some "a" ∧
          lookupRS "signal" [("signal", .opened), ("z", .opened)] =
            some .opened)) ∧
      (∀ r ∈ out.sentTo,
        (r, ReadyState.opened) ∈
          ([("signal", .opened), ("z", .opened)] : Conns) ∧
        r ≠ "signal" ∧ r ∉ ([] : List String) ∧
        ({ type := some "offer", from_ := some "a", to_ := some "c",
           ttl := some 3, forwardBy := some [] } : Message).from_ ≠
          some r) ∧
      (({ type := some "offer", from_ := some "a", to_ := some "c",
          ttl := some 3, forwardBy := some [] } : Message).from_ ≠
          some "a" → out.success = true) :=
  broadcast_success_spec "a" [("signal", .opened), ("z", .opened)]
    { type := some "offer", from_ := some "a", to_ := some "c",
      ttl := some 3, forwardBy := some [] } [] rfl

/-- One step of the ceiling division that counts the chunks of a nonempty
buffer: one chunk of size cs plus the chunks of the rest. -/
theorem ceil_div_succ (cs len : ℕ) (hcs : 0 < cs) (hlen : 0 < len) :
    (len + cs - 1) / cs = ((len - cs) + cs - 1) / cs + 1 := by
  have h1 : len + cs - 1 = (len - 1) + cs := by omega
  rw [h1, Nat.add_div_right _ hcs]
  rcases Nat.lt_or_ge len cs with h | h
  · have h2 : (len - cs) + cs - 1 = cs - 1 := by omega
    rw [h2, Nat.div_eq_of_lt (by omega), Nat.div_eq_of_lt (by omega)]
  · have h2 : (len - cs) + cs - 1 = len - 1 := by omega
    rw [h2]

/-- Cutting a list into consecutive take-cs chunks and concatenating them
gives the list back. -/
theorem chunks_flatten_aux (cs : ℕ) (hcs : 0 < cs) :
    ∀ (k : ℕ) (l : List ℕ), l.length ≤ k →
      ((List.range ((l.length + cs - 1) / cs)).map
        (fun i => (l.drop (i * cs)).take cs)).flatten = l := by
  intro k
  induction k with
  | zero =>
    intro l hl
    have hnil : l = [] := List.length_eq_zero.1 (Nat.le_zero.1 hl)
    subst hnil
    have h0 : (List.length ([] : List ℕ) + cs - 1) / cs = 0 :=
      Nat.div_eq_of_lt (by simp; omega)
    rw [h0]
    simp
  | succ k ih =>
    intro l hl
    rcases Nat.eq_zero_or_pos l.length with hlen | hlen
    · have hnil : l = [] := List.length_eq_zero.1 hlen
      subst hnil
      have h0 : (List.length ([] : List ℕ) + cs - 1) / cs = 0 :=
        Nat.div_eq_of_lt (by simp; omega)
      rw [h0]
      simp
    · rw [ceil_div_succ cs l.length hcs hlen]
      rw [List.range_succ_eq_map, List.map_cons, List.map_map,
        List.flatten_cons]
      have hfs : ((fun i => (l.drop (i * cs)).take cs) ∘ Nat.succ) =
          (fun i => ((l.drop cs).drop (i * cs)).take cs) := by
        funext i
        simp only [Function.comp]
        rw [List.drop_drop, Nat.succ_mul]
        try congr 2
        try omega
      rw [hfs]
      have hdl : (l.drop cs).length ≤ k := by
        rw [List.length_drop]
        omega
      have hIH := ih (l.drop cs) hdl
      rw [List.length_drop] at hIH
      rw [hIH]
      simp only [Nat.zero_mul, List.drop_zero]
      exact List.take_append_drop cs l

/-- Claim C10 (corrected): for every positive chunkSize, getChunkedPart is
total: it returns the empty array when the part is unknown or its status
is neither available nor added, and otherwise ceil(byteLength/chunkSize)
chunks of at most chunkSize bytes whose in-order concatenation is the
buffer of the part.  For chunkSize 0 and a nonempty available buffer the
chunk loop never terminates (see the counterexample), so the claimed
totality on all inputs fails. -/
theorem getChunkedPart_total_pos (parts : List MPart) (cs p : ℕ)
    (h : 0 < cs) :
    ∃ cl, getChunkedPart parts cs p = some cl ∧
      (∀ part, parts.get? p = some part →
        ((part.status = "available" ∨ part.status = "added") →
          cl.length = (part.buffer.length + cs - 1) / cs ∧
          (∀ c ∈ cl, c.length ≤ cs) ∧ cl.flatten = part.buffer) ∧
        (¬(part.status = "available" ∨ part.status = "added") →
          cl = [])) ∧
      (parts.get? p = none → cl = []) := by
  unfold getChunkedPart
  rcases hp : parts.get? p with _ | part
  · refine ⟨[], rfl, ?_, fun _ => rfl⟩
    intro part hc
    exact absurd hc (by simp)
  · dsimp only
    by_cases hs : part.status = "available" ∨ part.status = "added"
    · rw [if_pos hs]
      have hb : chunkLoopBound part.buffer.length cs =
          some ((part.buffer.length + cs - 1) / cs) := by
        unfold chunkLoopBound
        rw [if_neg (Nat.pos_iff_ne_zero.1 h)]
      rw [hb]
      refine ⟨_, rfl, ?_, ?_⟩
      · intro part1 hpart1
        cases Option.some.inj hpart1
        refine ⟨fun _ => ⟨?_, ?_, ?_⟩, fun hn => absurd hs hn⟩
        · simp
        · intro c hc
          rcases List.mem_map.1 hc with ⟨i, _, rfl⟩
          rw [List.length_take]
          exact min_le_left _ _
        · exact chunks_flatten_aux cs h part.buffer.length part.buffer
            (le_refl _)
      · intro hnone
        exact absurd hnone (by simp)
    · rw [if_neg hs]
      refine ⟨[], rfl, ?_, fun _ => rfl⟩
      intro part1 hpart1
      cases Option.some.inj hpart1
      exact ⟨fun hc => absurd hc hs, fun _ => rfl⟩

/-- An available three-byte part used by the C10 witness. -/
def samplePart : MPart := { status := "available", buffer := [1, 2, 3] }

/-- Claim C10 witness: a 3-byte available buffer cut into chunks of 2. -/
theorem getChunkedPart_total_pos_witness :
    ∃ cl, getChunkedPart [samplePart] 2 0 = some cl ∧
      (∀ part, ([samplePart] : List MPart).get? 0 = some part →
        ((part.status = "available" ∨ part.status = "added") →
          cl.length = (part.buffer.length + 2 - 1) / 2 ∧
          (∀ c ∈ cl, c.length ≤ 2) ∧ cl.flatten = part.buffer) ∧
        (¬(part.status = "available" ∨ part.status = "added") →
          cl = [])) ∧
      (([samplePart] : List MPart).get? 0 = none → cl = []) :=
  getChunkedPart_total_pos [samplePart] 2 0 (by decide)

/-- The failures of messageIsValid, field by field. -/
theorem messageIsValid_eq_false_iff (m : Message) :
    messageIsValid m = false ↔
      (m.type = none ∨ m.from_ = none ∨ m.to_ = none ∨
        (∃ t, m.type = some t ∧ t ∈ forwardableTypes ∧
          (m.ttl = none ∨ m.forwardBy = none))) := by
  obtain ⟨ty, fr, dst, tt, fb, rt⟩ := m
  rcases ty with _ | t
  · simp [messageIsValid, typeIsForwardable]
  · by_cases hT : t ∈ forwardableTypes
    · rcases fr with _ | f <;> rcases dst with _ | o <;>
        rcases tt with _ | v <;> rcases fb with _ | b <;>
        simp [messageIsValid, typeIsForwardable, hT]
    · rcases fr with _ | f <;> rcases dst with _ | o <;>
        simp [messageIsValid, typeIsForwardable, hT]

/-- The fields a valid message is guaranteed to carry. -/
theorem messageIsValid_fields (m : Message)
    (hv : messageIsValid m = true) :
    m.type ≠ none ∧ m.from_ ≠ none ∧ m.to_ ≠ none ∧
      (typeIsForwardable m.type = true →
        (m.ttl ≠ none ∧ m.forwardBy ≠ none)) := by
  simp only [messageIsValid, Bool.and_eq_true] at hv
  obtain ⟨⟨⟨h1, h2⟩, h3⟩, h4⟩ := hv
  refine ⟨Option.isSome_iff_ne_none.1 h1, Option.isSome_iff_ne_none.1 h2,
    Option.isSome_iff_ne_none.1 h3, ?_⟩
  intro hF
  rw [if_pos hF, Bool.and_eq_true] at h4
  exact ⟨Option.isSome_iff_ne_none.1 h4.1, Option.isSome_iff_ne_none.1 h4.2⟩

/-- broadcast only throws when the message has no forwardBy field. -/
theorem broadcast_isOk (selfId : String) (conns : Conns) (m : Message)
    (h : m.forwardBy ≠ none) : ∃ out, broadcast selfId conns m = .ok out := by
  rcases hfb : m.forwardBy with _ | fb
  · exact absurd hfb h
  · simp only [broadcast, hfb]
    split
    · split <;> exact ⟨_, rfl⟩
    · exact ⟨_, rfl⟩

/-- The request-peer solicitation of a defined destination never throws:
its message is valid and carries an empty forwardBy. -/
theorem sendRequestPeer_isOk (st : RouterState) (t : String)
    (timeout : Option Int) (ts : Int) :
    ∃ res, sendRequestPeer st (some t) timeout ts = .ok res := by
  unfold sendRequestPeer
  dsimp only
  by_cases h1 : t = st.selfId
  · rw [if_pos h1]
    exact ⟨_, rfl⟩
  · rw [if_neg h1]
    by_cases h2 : lookupRS t st.conns = some .opened
    · rw [if_pos h2]
      exact ⟨_, rfl⟩
    · rw [if_neg h2]
      obtain ⟨out, hout⟩ := broadcast_isOk st.selfId st.conns
        { type := some "request-peer", from_ := some st.selfId,
          to_ := some t, ttl := some st.ttl, forwardBy := some [] }
        (by simp)
      rw [hout]
      dsimp only
      split
      · exact ⟨_, rfl⟩
      · split
        · exact ⟨_, rfl⟩
        · split
          · exact ⟨_, rfl⟩
          · exact ⟨_, rfl⟩

/-- addMessageToQueue never throws for a message with a destination. -/
theorem addMessageToQueue_isOk (st : RouterState) (elt : QueuedMessage)
    (effs : List Effect) (h : elt.message.to_ ≠ none) :
    ∃ res, addMessageToQueue st elt effs = .ok res := by
  unfold addMessageToQueue
  dsimp only
  split
  · exact ⟨_, rfl⟩
  · split
    · split
      · exact ⟨_, rfl⟩
      · exact ⟨_, rfl⟩
    · rcases ht : elt.message.to_ with _ | t
      · exact absurd ht h
      · obtain ⟨res, hres⟩ := sendRequestPeer_isOk
          { st with queue := st.queue ++ [elt] } t elt.timeout
          elt.timestamp
        rw [hres]
        exact ⟨_, rfl⟩

/-- The broadcast-or-queue tail never throws for a message with a
destination whose forwardBy is present whenever its type is
forwardable. -/
theorem processForwardOrQueue_isOk (st : RouterState) (elt : QueuedMessage)
    (h1 : elt.message.to_ ≠ none)
    (h2 : typeIsForwardable elt.message.type = true →
      elt.message.forwardBy ≠ none) :
    ∃ res, processForwardOrQueue st elt = .ok res := by
  unfold processForwardOrQueue
  by_cases hF : typeIsForwardable elt.message.type = true
  · rw [if_pos hF]
    obtain ⟨out, hout⟩ := broadcast_isOk st.selfId st.conns elt.message
      (h2 hF)
    rw [hout]
    dsimp only
    split
    · exact ⟨_, rfl⟩
    · exact addMessageToQueue_isOk _ _ _ h1
  · rw [if_neg hF]
    exact addMessageToQueue_isOk _ _ _ h1

/-- The route branch never throws under the same conditions. -/
theorem processRoute_isOk (st : RouterState) (elt : QueuedMessage)
    (h1 : elt.message.to_ ≠ none)
    (h2 : typeIsForwardable elt.message.type = true →
      elt.message.forwardBy ≠ none) :
    ∃ res, processRoute st elt = .ok res := by
  unfold processRoute
  dsimp only
  rcases hr : elt.message.route with _ | rl
  · exact processForwardOrQueue_isOk st elt h1 h2
  · rcases rl with _ | ⟨r, rest⟩
    · exact processForwardOrQueue_isOk st elt h1 h2
    · dsimp only
      split
      · exact ⟨_, rfl⟩
      · exact processForwardOrQueue_isOk st elt h1 h2

/-- processMessage never throws under the same conditions. -/
theorem processMessage_isOk (st : RouterState) (elt : QueuedMessage)
    (h1 : elt.message.to_ ≠ none)
    (h2 : typeIsForwardable elt.message.type = true →
      elt.message.forwardBy ≠ none) :
    ∃ res, processMessage st elt = .ok res := by
  unfold processMessage
  rcases ht : elt.message.to_ with _ | t
  · exact processRoute_isOk st elt h1 h2
  · dsimp only
    split
    · exact ⟨_, rfl⟩
    · exact processRoute_isOk st elt h1 h2

/-- A valid message is fully processed by send without an exception. -/
theorem send_isOk (st : RouterState) (m : Message) (timeout : Option Int)
    (ts : Int) (hv : messageIsValid m = true) :
    ∃ res, send st m timeout ts = .ok res := by
  unfold send
  rw [if_neg (by rw [hv]; simp)]
  by_cases h2 : m.to_ = some st.selfId
  · rw [if_pos h2]
    exact ⟨_, rfl⟩
  · rw [if_neg h2]
    obtain ⟨hty, hfr, hto, hadd⟩ := messageIsValid_fields m hv
    exact processMessage_isOk st ⟨m, timeout, ts⟩ hto
      (fun hF => (hadd hF).2)

/-- Claim C6 (confirmed): Peer send raises the invalid-message error
exactly when the message misses (is absent or undefined) one of type,
from, to, or, for the types request-peer, answer, icecandidate and offer,
one of ttl and forwardBy; the error is thrown by the validation at the top
of send, before anything is sent, dispatched or queued, so in the error
case the state is unchanged and no effect is produced. -/
theorem send_invalid_message_iff (st : RouterState) (m : Message)
    (timeout : Option Int) (ts : Int) :
    ((∃ e, send st m timeout ts = .error e) ↔
      (m.type = none ∨ m.from_ = none ∨ m.to_ = none ∨
        (∃ t, m.type = some t ∧ t ∈ forwardableTypes ∧
          (m.ttl = none ∨ m.forwardBy = none)))) ∧
    (messageIsValid m = false →
      send st m timeout ts = .error "Message object is invalid") := by
  have herr : messageIsValid m = false →
      send st m timeout ts = .error "Message object is invalid" := by
    intro hf
    unfold send
    rw [if_pos hf]
  refine ⟨⟨?_, ?_⟩, herr⟩
  · rintro ⟨e, he⟩
    by_contra hn
    have hv : messageIsValid m = true := by
      rcases hb : messageIsValid m with _ | _
      · exact absurd ((messageIsValid_eq_false_iff m).1 hb) hn
      · rfl
    obtain ⟨res, hres⟩ := send_isOk st m timeout ts hv
    rw [hres] at he
    exact absurd he (by simp)
  · intro hrhs
    exact ⟨"Message object is invalid",
      herr ((messageIsValid_eq_false_iff m).2 hrhs)⟩

/-- An offer message without ttl and forwardBy, used by the C6 witness. -/
def badOffer : Message :=
  { type := some "offer", from_ := some "b", to_ := some "c" }

/-- Claim C6 witness: an offer missing ttl and forwardBy is rejected by
send on a concrete peer state. -/
theorem send_invalid_message_iff_witness :
    ((∃ e, send ⟨"a", 3, [], []⟩ badOffer none 0 = .error e) ↔
      (badOffer.type = none ∨ badOffer.from_ = none ∨ badOffer.to_ = none ∨
        (∃ t, badOffer.type = some t ∧ t ∈ forwardableTypes ∧
          (badOffer.ttl = none ∨ badOffer.forwardBy = none)))) ∧
    (messageIsValid badOffer = false →
      send ⟨"a", 3, [], []⟩ badOffer none 0 =
        .error "Message object is invalid") :=
  send_invalid_message_iff ⟨"a", 3, [], []⟩ badOffer none 0

end Paradone
